import Mathlib

/-!
Shallow embedding of `src/src/session.rs` (crate `axum_database_sessions`):
the `AxumSession` handle over a shared session table, with the `tap`
read-modify-write primitive and the `get` / `set` / `remove` / `clear_all`
operations built on it.  Rust `HashMap`s are modelled as association lists
with unique keys; the tokio `RwLock`/`Mutex` layers disappear in the
sequential embedding, leaving the pure state transformations each operation
performs under its locks.
-/

namespace AxumSessions

/-- A 128-bit session identifier (Rust `uuid::Uuid`; `Uuid::new_v4` draws a
random 128-bit value). -/
abbrev Uuid := Fin (2 ^ 128)

/-- Rendering of a `Uuid` as a table key (Rust `Uuid::to_string`), modelled
by rendering the underlying 128-bit value. -/
def uuidKey (u : Uuid) : String := toString u.val

/-- One session's `HashMap<String, String>` (field `data` of
`AxumSessionData`), as an association list. -/
abbrev DataMap := List (String × String)

/-- `HashMap::get`. -/
def dataGet : DataMap → String → Option String
  | [], _ => none
  | (k, v) :: rest, key => if k = key then some v else dataGet rest key

/-- `HashMap::insert`: replaces the stored value when the key is present,
appends the pair otherwise. -/
def dataInsert : DataMap → String → String → DataMap
  | [], key, v => [(key, v)]
  | (k, v') :: rest, key, v =>
      if k = key then (k, v) :: rest else (k, v') :: dataInsert rest key v

/-- The removal part of `HashMap::remove`: drops every pair stored under the
key (a `HashMap` holds at most one). -/
def dataRemoveList : DataMap → String → DataMap
  | [], _ => []
  | (k, v) :: rest, key =>
      if k = key then dataRemoveList rest key else (k, v) :: dataRemoveList rest key

/-- `HashMap::remove`: the map without the key, together with the value that
was stored under it, if any. -/
def dataRemove (m : DataMap) (key : String) : DataMap × Option String :=
  (dataRemoveList m key, dataGet m key)

/-- The fields of `AxumSessionData` that `AxumSession` (session.rs) reads or
writes: the serialized key/value map and the three lifecycle flags. -/
structure AxumSessionData where
  data : DataMap
  destroy : Bool
  longterm : Bool
  accepted : Bool
deriving Repr, DecidableEq

/-- A fresh, empty session payload. -/
def emptyData : AxumSessionData :=
  { data := [], destroy := false, longterm := false, accepted := false }

/-- The in-memory session table (`store.inner`): identifier string →
session payload. -/
abbrev Table := List (String × AxumSessionData)

/-- Table lookup (`HashMap::get` on the inner table). -/
def tableGet : Table → String → Option AxumSessionData
  | [], _ => none
  | (k, sd) :: rest, id => if k = id then some sd else tableGet rest id

/-- In-place mutation of the entry stored under `id` (the effect of writing
through the entry's `Mutex` guard); a missing entry is left untouched. -/
def tableUpdate : Table → String → AxumSessionData → Table
  | [], _, _ => []
  | (k, sd') :: rest, id, sd =>
      if k = id then (k, sd) :: rest else (k, sd') :: tableUpdate rest id sd

/-- `HashMap::contains_key` on the inner table. -/
def tableContains (t : Table) (key : String) : Bool := (tableGet t key).isSome

/-- Structural insert of a fresh entry (used only by the materialization step
modelled from the spec). -/
def tableInsert (t : Table) (id : String) (sd : AxumSessionData) : Table :=
  (id, sd) :: t

/-- Everything a `tap` call produces: the table after the call, the value the
closure returned, and any `tracing::warn!` output emitted. -/
structure TapResult (T : Type) where
  table : Table
  result : Option T
  warnings : List String
deriving Repr

/-- `AxumSession::tap` (session.rs:75-88): look the handle's identifier up in
the table; on a hit, run the closure on the entry under its lock; on a miss,
log `"Session data unexpectedly missing"` and yield `None`.  The Rust closure
mutates the entry in place and returns an `Option<T>`; it is modelled as a
function returning the new payload together with that option. -/
def tap {T : Type} (t : Table) (id : String)
    (func : AxumSessionData → AxumSessionData × Option T) : TapResult T :=
  match tableGet t id with
  | some sd =>
      let r := func sd
      { table := tableUpdate t id r.1, result := r.2, warnings := [] }
  | none =>
      { table := t, result := none, warnings := ["Session data unexpectedly missing"] }

/-- `AxumSession::get` (session.rs:150-156): tap, look the key up in the
entry's map, and deserialize (`serde_json::from_str(..).ok()`); the
deserializer is a parameter of the embedding. -/
def get {T : Type} (deserialize : String → Option T) (t : Table) (id key : String) :
    TapResult T :=
  tap t id (fun sess => (sess, (dataGet sess.data key).bind deserialize))

/-- `serde_json::to_string(&value).unwrap_or_else(|_| "".to_string())`
(session.rs:166): a failed serialization degrades to the empty string. -/
def serializeStr {T : Type} (serialize : T → Option String) (v : T) : String :=
  (serialize v).getD ""

/-- `AxumSession::set` (session.rs:165-175): serialize the value (empty
string on failure), then tap: insert only when the stored string differs
from the new one; the closure always returns `Some(1)`. -/
def set {T : Type} (serialize : T → Option String) (t : Table) (id key : String) (v : T) :
    TapResult Nat :=
  let value := serializeStr serialize v
  tap t id (fun sess =>
    if dataGet sess.data key ≠ some value then
      ({ sess with data := dataInsert sess.data key value }, some 1)
    else (sess, some 1))

/-- The tap inside `AxumSession::remove` (session.rs:184-186): the closure is
`sess.data.remove(key)`, so the tap yields the value previously stored under
the key. -/
def removeTap (t : Table) (id key : String) : TapResult String :=
  tap t id (fun sess =>
    let r := dataRemove sess.data key
    ({ sess with data := r.1 }, r.2))

/-- `AxumSession::remove` itself: it runs the tap, discards its result with
`;`, and returns `()`. -/
def remove (t : Table) (id key : String) : Table × Unit :=
  ((removeTap t id key).table, ())

/-- The store as `clear_all` and `count` see it: the in-memory table, the
persistence switch, and the durable backend at the granularity of the spec's
interface (a durable table plus whether `clear_store` fails). -/
structure AxumSessionStore where
  table : Table
  persistent : Bool
  backendTable : List (String × DataMap)
  backendClearFails : Bool
deriving Repr

/-- The backend's `clear_store`: fails with an error, or empties the durable
table. -/
def clear_store (s : AxumSessionStore) : Except Unit AxumSessionStore :=
  if s.backendClearFails then Except.error () else Except.ok { s with backendTable := [] }

/-- Everything a `clear_all` call produces: the store afterwards, whether the
call panicked (`Result::unwrap` on an `Err`), whether the backend clear was
invoked, and any warning output (the function contains no `tracing` call). -/
structure ClearAllResult where
  store : AxumSessionStore
  panicked : Bool
  backendInvoked : Bool
  warnings : List String
deriving Repr

/-- `AxumSession::clear_all` (session.rs:195-207): clear the current entry's
`data` map in place when the entry exists (silently skip otherwise), then, if
the store is persistent, call `clear_store().unwrap()` — an `Err` from the
backend panics. -/
def clear_all (s : AxumSessionStore) (id : String) : ClearAllResult :=
  let t : Table :=
    match tableGet s.table id with
    | some sd => tableUpdate s.table id { sd with data := [] }
    | none => s.table
  let s1 : AxumSessionStore := { s with table := t }
  if s1.persistent then
    match clear_store s1 with
    | Except.ok s2 => { store := s2, panicked := false, backendInvoked := true, warnings := [] }
    | Except.error _ => { store := s1, panicked := true, backendInvoked := true, warnings := [] }
  else
    { store := s1, panicked := false, backendInvoked := false, warnings := [] }

/-- The `loop` of `AxumSession::new` (session.rs:48-54): draw candidates in
order and return the first whose rendered form is not a key of the table.
The Rust loop is unbounded; `fuel` bounds the embedding, and the theorems
show the loop stops at the first fresh candidate whenever the fuel reaches
it. -/
def genLoop (t : Table) (cands : Nat → Uuid) : Nat → Option Uuid
  | 0 => none
  | fuel + 1 =>
      if tableContains t (uuidKey (cands 0)) then
        genLoop t (fun n => cands (n + 1)) fuel
      else some (cands 0)

/-- `AxumSession::new` (session.rs:39-62): parse the inbound cookie value;
on success bind the handle to exactly that identifier, otherwise run the
generation loop over the random candidate stream.  Returns the identifier
the handle is bound to. -/
def new (t : Table) (cands : Nat → Uuid) (fuel : Nat)
    (parse : String → Option Uuid) (cookieVal : Option String) : Option Uuid :=
  match cookieVal.bind parse with
  | some v => some v
  | none => genLoop t cands fuel

/-- Modelled from the spec: the eager/lazy materialization of a session
entry happens in the service layer, which is not under src/ (only
`AxumSession` is).  §4.1 specifies `get_or_create(id)`: return the entry for
`id`, creating an empty one if absent. -/
def get_or_create (t : Table) (id : String) : Table :=
  match tableGet t id with
  | some _ => t
  | none => tableInsert t id emptyData

/-! ### Concrete stores used by witnesses and counterexamples -/

/-- A session payload holding one key. -/
def sdK : AxumSessionData :=
  { data := [("k", "1")], destroy := false, longterm := false, accepted := false }

/-- A table with a populated session `"s"` and an empty session `"u"`. -/
def tK : Table := [("s", sdK), ("u", emptyData)]

/-- A persistent store over `tK` with a working backend. -/
def storeK : AxumSessionStore :=
  { table := tK, persistent := true,
    backendTable := [("s", [("k", "1")])], backendClearFails := false }

/-- A persistent store over `tK` with a working backend and durable data. -/
def storeMissing : AxumSessionStore :=
  { table := tK, persistent := true,
    backendTable := [("s", [("k", "1")])], backendClearFails := false }

/-- A persistent store whose backend clear fails. -/
def failingStore : AxumSessionStore :=
  { table := [("0", emptyData)], persistent := true,
    backendTable := [("0", [("k", "v")])], backendClearFails := true }

/-- A table already containing the rendering of candidate `5`. -/
def genTable : Table := [("5", emptyData)]

/-- A candidate stream whose first draw collides with `genTable`. -/
def cands1 : Nat → Uuid := fun n => if n = 0 then (5 : Uuid) else (7 : Uuid)

/-- A cookie parser accepting exactly the string `"u"`. -/
def parse1 : String → Option Uuid := fun s => if s = "u" then some (9 : Uuid) else none

/-! ### Map and table lemmas -/

theorem dataGet_dataInsert_self (m : DataMap) (key v : String) :
    dataGet (dataInsert m key v) key = some v := by
  induction m with
  | nil => simp [dataInsert, dataGet]
  | cons p rest ih =>
      obtain ⟨k, v'⟩ := p
      by_cases hk : k = key
      · simp [dataInsert, dataGet, hk]
      · simp [dataInsert, dataGet, hk, ih]

theorem dataGet_dataRemoveList (m : DataMap) (key : String) :
    dataGet (dataRemoveList m key) key = none := by
  induction m with
  | nil => simp [dataRemoveList, dataGet]
  | cons p rest ih =>
      obtain ⟨k, v⟩ := p
      by_cases hk : k = key
      · simp [dataRemoveList, hk, ih]
      · simp [dataRemoveList, dataGet, hk, ih]

theorem tableGet_tableUpdate_self (t : Table) (id : String) (sd : AxumSessionData)
    (h : (tableGet t id).isSome = true) :
    tableGet (tableUpdate t id sd) id = some sd := by
  induction t with
  | nil => simp [tableGet] at h
  | cons p rest ih =>
      obtain ⟨k, sd'⟩ := p
      by_cases hk : k = id
      · simp [tableGet, tableUpdate, hk]
      · simp [tableGet, tableUpdate, hk] at h ⊢
        exact ih h

theorem tableGet_tableUpdate_ne (t : Table) (id id' : String) (sd : AxumSessionData)
    (h : id' ≠ id) :
    tableGet (tableUpdate t id sd) id' = tableGet t id' := by
  induction t with
  | nil => simp [tableUpdate]
  | cons p rest ih =>
      obtain ⟨k, sd'⟩ := p
      by_cases hk : k = id
      · subst hk
        have hk' : k ≠ id' := fun he => h (he ▸ rfl)
        simp [tableGet, tableUpdate, hk']
      · simp [tableGet, tableUpdate, hk, ih]

theorem tableUpdate_self (t : Table) (id : String) (sd : AxumSessionData)
    (h : tableGet t id = some sd) :
    tableUpdate t id sd = t := by
  induction t with
  | nil => simp [tableUpdate]
  | cons p rest ih =>
      obtain ⟨k, sd'⟩ := p
      by_cases hk : k = id
      · simp [tableGet, hk] at h
        simp [tableUpdate, hk, h]
      · simp [tableGet, hk] at h
        simp [tableUpdate, hk, ih h]

/-- Whenever the entry exists, `set` leaves an entry whose map stores the
serialized form under the key, and the tap reports `Some 1`. -/
theorem set_stored {T : Type} (serialize : T → Option String) (t : Table)
    (id key : String) (v : T) (sd : AxumSessionData)
    (h : tableGet t id = some sd) :
    ∃ sd', tableGet (set serialize t id key v).table id = some sd' ∧
      dataGet sd'.data key = some (serializeStr serialize v) ∧
      (set serialize t id key v).result = some 1 := by
  by_cases hc : dataGet sd.data key = some (serializeStr serialize v)
  · refine ⟨sd, ?_, hc, ?_⟩
    · simp only [set, tap, h, hc, ne_eq, not_true_eq_false, if_neg, ite_false,
        not_not, not_false_eq_true]
      exact tableGet_tableUpdate_self t id sd (by simp [h])
    · simp only [set, tap, h]
      split <;> rfl
  · refine ⟨{ sd with data := dataInsert sd.data key (serializeStr serialize v) },
      ?_, ?_, ?_⟩
    · simp only [set, tap, h, hc, ne_eq, not_false_eq_true, ite_true, if_pos]
      exact tableGet_tableUpdate_self t id _ (by simp [h])
    · simp [dataGet_dataInsert_self]
    · simp only [set, tap, h]
      split <;> rfl

/-! ### Claims -/

/-- C2 counterexample: `remove` returns `()` whatever the store held — two
stores that differ in whether the key exists give identical return values,
so the return value of `remove` does not report whether the key existed. -/
theorem c2_remove_counterexample :
    (dataGet sdK.data "k").isSome = true ∧
    (dataGet emptyData.data "k").isSome = false ∧
    (remove [("s", sdK)] "s" "k").2 = (remove [("s", emptyData)] "s" "k").2 := by
  decide

/-- C2 amended: `remove(key)` deletes the key from the session's store map
and the tap inside it yields the value previously stored under the key
(present exactly when the key existed), but the public `remove` discards
that value and returns `()` — no existence indication reaches the caller. -/
theorem c2_remove_deletes (t : Table) (id key : String) (sd : AxumSessionData)
    (h : tableGet t id = some sd) :
    tableGet (remove t id key).1 id = some { sd with data := dataRemoveList sd.data key } ∧
    dataGet (dataRemoveList sd.data key) key = none ∧
    (removeTap t id key).result = dataGet sd.data key ∧
    (remove t id key).2 = () := by
  refine ⟨?_, dataGet_dataRemoveList _ _, ?_, rfl⟩
  · simp only [remove, removeTap, tap, h, dataRemove]
    exact tableGet_tableUpdate_self t id _ (by simp [h])
  · simp [removeTap, tap, h, dataRemove]

/-- C2 witness: deleting `"k"` from session `"s"` of `tK` removes the key,
the inner tap yields the stored `"1"`, and `remove` returns `()`. -/
theorem c2_remove_deletes_witness :
    tableGet tK "s" = some sdK ∧
    (tableGet (remove tK "s" "k").1 "s" = some { sdK with data := dataRemoveList sdK.data "k" } ∧
     dataGet (dataRemoveList sdK.data "k") "k" = none ∧
     (removeTap tK "s" "k").result = dataGet sdK.data "k" ∧
     (remove tK "s" "k").2 = ()) :=
  ⟨by decide, c2_remove_deletes tK "s" "k" sdK (by decide)⟩

/-- C4: a `tap` call whose identifier has no entry in the table logs the
missing-data warning and returns `none`, leaving the table exactly as it
was — it neither fabricates a `SessionData` nor produces a hard failure. -/
theorem c4_tap_missing_entry {T : Type} (t : Table) (id : String)
    (func : AxumSessionData → AxumSessionData × Option T)
    (h : tableGet t id = none) :
    tap t id func =
      { table := t, result := none,
        warnings := ["Session data unexpectedly missing"] } := by
  simp [tap, h]

/-- C4 witness: tapping the empty table at `"x"` warns and returns `none`. -/
theorem c4_tap_missing_entry_witness :
    tableGet ([] : Table) "x" = none ∧
    tap ([] : Table) "x" (fun sd => (sd, some 0)) =
      { table := [], result := none,
        warnings := ["Session data unexpectedly missing"] } :=
  ⟨rfl, c4_tap_missing_entry [] "x" (fun sd => (sd, some 0)) rfl⟩

/-- C6: for any value type with a serializer and deserializer under which the
value round-trips (the spec's "supported value types"), when the session's
entry exists, `set(key, value)` followed by `get(key)` returns the value. -/
theorem c6_set_get_roundtrip {T : Type}
    (serialize : T → Option String) (deserialize : String → Option T)
    (t : Table) (id key : String) (v : T) (s : String) (sd : AxumSessionData)
    (hentry : tableGet t id = some sd)
    (hser : serialize v = some s) (hde : deserialize s = some v) :
    (get deserialize (set serialize t id key v).table id key).result = some v := by
  obtain ⟨sd', hget', hdata', _⟩ := set_stored serialize t id key v sd hentry
  have hval : serializeStr serialize v = s := by simp [serializeStr, hser]
  rw [hval] at hdata'
  simp [get, tap, hget', hdata', hde]

/-- C6 witness: with the identity string codec, setting `"v"` under `"k"`
in session `"s"` and reading it back yields `"v"`. -/
theorem c6_set_get_roundtrip_witness :
    tableGet [("s", emptyData)] "s" = some emptyData ∧
    (get (fun x => some x)
        (set (fun x : String => some x) [("s", emptyData)] "s" "k" "v").table
        "s" "k").result = some "v" :=
  ⟨by decide,
   c6_set_get_roundtrip (fun x => some x) (fun x => some x)
     [("s", emptyData)] "s" "k" "v" "v" emptyData (by decide) rfl rfl⟩

/-- C7: when the store already maps the key to the value's serialized form,
`set` performs no write — the table is unchanged — and consequently the state
after a second identical `set` equals the state after the first. -/
theorem c7_set_no_redundant_write {T : Type} (serialize : T → Option String)
    (t : Table) (id key : String) (v : T) (sd : AxumSessionData)
    (hentry : tableGet t id = some sd)
    (hstored : dataGet sd.data key = some (serializeStr serialize v)) :
    (set serialize t id key v).table = t ∧
    (set serialize (set serialize t id key v).table id key v).table =
      (set serialize t id key v).table := by
  have h1 : (set serialize t id key v).table = t := by
    simp only [set, tap, hentry, hstored, ne_eq, not_true_eq_false, ite_false,
      if_neg, not_not, not_false_eq_true]
    exact tableUpdate_self t id sd hentry
  exact ⟨h1, by rw [h1, h1]⟩

/-- C7 witness: session `"s"` of `tK` already stores `"1"` under `"k"`, so a
`set` of `"1"` (identity codec) leaves the table untouched, twice. -/
theorem c7_set_no_redundant_write_witness :
    tableGet tK "s" = some sdK ∧
    dataGet sdK.data "k" = some (serializeStr (fun x : String => some x) "1") ∧
    ((set (fun x : String => some x) tK "s" "k" "1").table = tK ∧
     (set (fun x : String => some x)
        (set (fun x : String => some x) tK "s" "k" "1").table "s" "k" "1").table =
      (set (fun x : String => some x) tK "s" "k" "1").table) :=
  ⟨by decide, by decide,
   c7_set_no_redundant_write (fun x => some x) tK "s" "k" "1" sdK (by decide) (by decide)⟩

/-- C8: when serialization of the value fails, `set` still completes
normally — the tap reports `Some 1` — and the empty string is stored under
the key (the documented fail-open degradation). -/
theorem c8_set_serialization_failure {T : Type} (serialize : T → Option String)
    (t : Table) (id key : String) (v : T) (sd : AxumSessionData)
    (hentry : tableGet t id = some sd) (hfail : serialize v = none) :
    (set serialize t id key v).result = some 1 ∧
    ∃ sd', tableGet (set serialize t id key v).table id = some sd' ∧
      dataGet sd'.data key = some "" := by
  obtain ⟨sd', h1, h2, h3⟩ := set_stored serialize t id key v sd hentry
  have hempty : serializeStr serialize v = "" := by simp [serializeStr, hfail]
  rw [hempty] at h2
  exact ⟨h3, sd', h1, h2⟩

/-- C8 witness: a always-failing serializer makes `set` store `""` under
`"k"` in session `"s"` and still return `Some 1`. -/
theorem c8_set_serialization_failure_witness :
    tableGet [("s", emptyData)] "s" = some emptyData ∧
    ((set (fun _ : Nat => (none : Option String)) [("s", emptyData)] "s" "k" 0).result
        = some 1 ∧
     ∃ sd', tableGet (set (fun _ : Nat => (none : Option String))
        [("s", emptyData)] "s" "k" 0).table "s" = some sd' ∧
      dataGet sd'.data "k" = some "") :=
  ⟨by decide,
   c8_set_serialization_failure (fun _ => none) [("s", emptyData)] "s" "k" 0
     emptyData (by decide) rfl⟩

/-- C1 counterexample: on `failingStore` — persistence enabled, backend clear
failing — `clear_all` panics (the `unwrap` of session.rs:205), contradicting
the claim that the failure is surfaced as a hard error without a
panic/abort. -/
theorem c1_clear_all_counterexample :
    failingStore.persistent = true ∧ failingStore.backendClearFails = true ∧
    (clear_all failingStore "0").panicked = true := by
  decide

/-- C1 amended: when the backend clear fails during `clear_all` on a
persistent store, the backend is invoked but the failure is never returned
to the caller — `clear_all` unwraps the error and panics. -/
theorem c1_clear_all_backend_failure_panics (s : AxumSessionStore) (id : String)
    (hp : s.persistent = true) (hf : s.backendClearFails = true) :
    (clear_all s id).panicked = true ∧ (clear_all s id).backendInvoked = true := by
  cases htg : tableGet s.table id <;> simp [clear_all, clear_store, htg, hp, hf]

/-- C1 witness: instantiating the amended statement on `failingStore`. -/
theorem c1_clear_all_backend_failure_panics_witness :
    failingStore.persistent = true ∧ failingStore.backendClearFails = true ∧
    ((clear_all failingStore "0").panicked = true ∧
     (clear_all failingStore "0").backendInvoked = true) :=
  ⟨rfl, rfl, c1_clear_all_backend_failure_panics failingStore "0" rfl rfl⟩

/-- C9: `clear_all` empties only the current session's `data` map in place —
the entry's three flags are unchanged and every other entry is untouched —
and, when persistence is enabled, it invokes the backend's full durable
clear, emptying the durable table when the backend succeeds (with
persistence off, the backend is neither invoked nor changed). -/
theorem c9_clear_all_frame (s : AxumSessionStore) (id : String) (sd : AxumSessionData)
    (h : tableGet s.table id = some sd) :
    tableGet (clear_all s id).store.table id = some { sd with data := [] } ∧
    (∀ id', id' ≠ id → tableGet (clear_all s id).store.table id' = tableGet s.table id') ∧
    (s.persistent = true → (clear_all s id).backendInvoked = true ∧
      (s.backendClearFails = false → (clear_all s id).store.backendTable = [])) ∧
    (s.persistent = false → (clear_all s id).backendInvoked = false ∧
      (clear_all s id).store.backendTable = s.backendTable) := by
  have htab : (clear_all s id).store.table = tableUpdate s.table id { sd with data := [] } := by
    cases hp : s.persistent <;> cases hf : s.backendClearFails <;>
      simp [clear_all, clear_store, h, hp, hf]
  refine ⟨?_, ?_, ?_, ?_⟩
  · rw [htab]
    exact tableGet_tableUpdate_self _ _ _ (by simp [h])
  · intro id' hne
    rw [htab]
    exact tableGet_tableUpdate_ne _ _ _ _ hne
  · intro hp
    cases hf : s.backendClearFails <;> simp [clear_all, clear_store, h, hp, hf]
  · intro hp
    simp [clear_all, clear_store, h, hp]

/-- C9 witness: clearing session `"s"` of `storeK` empties its map, keeps
its flags, leaves session `"u"` alone, and empties the durable table. -/
theorem c9_clear_all_frame_witness :
    tableGet storeK.table "s" = some sdK ∧
    tableGet (clear_all storeK "s").store.table "s" = some { sdK with data := [] } ∧
    tableGet (clear_all storeK "s").store.table "u" = tableGet storeK.table "u" ∧
    (clear_all storeK "s").backendInvoked = true ∧
    (clear_all storeK "s").store.backendTable = [] := by
  have h := c9_clear_all_frame storeK "s" sdK (by decide)
  exact ⟨by decide, h.1, h.2.1 "u" (by decide), (h.2.2.1 (by decide)).1,
    (h.2.2.1 (by decide)).2 (by decide)⟩

/-- C10: when the handle's identifier has no entry, `clear_all` leaves the
in-memory table unchanged and emits no warning — unlike `tap`, which warns on
the same table and identifier — yet with persistence enabled it still invokes
the backend's full durable clear. -/
theorem c10_clear_all_missing_entry (s : AxumSessionStore) (id : String)
    (h : tableGet s.table id = none) :
    (clear_all s id).store.table = s.table ∧
    (clear_all s id).warnings = [] ∧
    (∀ (T : Type) (f : AxumSessionData → AxumSessionData × Option T),
        (tap s.table id f).warnings = ["Session data unexpectedly missing"]) ∧
    (s.persistent = true → (clear_all s id).backendInvoked = true ∧
      (s.backendClearFails = false → (clear_all s id).store.backendTable = [])) := by
  refine ⟨?_, ?_, ?_, ?_⟩
  · cases hp : s.persistent <;> cases hf : s.backendClearFails <;>
      simp [clear_all, clear_store, h, hp, hf]
  · cases hp : s.persistent <;> cases hf : s.backendClearFails <;>
      simp [clear_all, clear_store, h, hp, hf]
  · intro T f
    simp [tap, h]
  · intro hp
    cases hf : s.backendClearFails <;> simp [clear_all, clear_store, h, hp, hf]

/-- C10 witness: `"zz"` has no entry in `storeMissing`; `clear_all` keeps the
table, warns nothing (while `tap` warns), and still clears the backend. -/
theorem c10_clear_all_missing_entry_witness :
    tableGet storeMissing.table "zz" = none ∧
    ((clear_all storeMissing "zz").store.table = storeMissing.table ∧
     (clear_all storeMissing "zz").warnings = [] ∧
     (tap storeMissing.table "zz" (fun sd => (sd, some 0))).warnings =
       ["Session data unexpectedly missing"] ∧
     (clear_all storeMissing "zz").backendInvoked = true ∧
     (clear_all storeMissing "zz").store.backendTable = []) := by
  have h := c10_clear_all_missing_entry storeMissing "zz" (by decide)
  exact ⟨by decide, h.1, h.2.1, h.2.2.1 Nat (fun sd => (sd, some 0)),
    (h.2.2.2 (by decide)).1, (h.2.2.2 (by decide)).2 (by decide)⟩

/-- The generation loop stops at the first candidate whose key is absent
from the table, provided the fuel reaches that candidate. -/
theorem genLoop_first_fresh (t : Table) :
    ∀ (k : Nat) (cands : Nat → Uuid) (fuel : Nat), k < fuel →
      (∀ j, j < k → tableContains t (uuidKey (cands j)) = true) →
      tableContains t (uuidKey (cands k)) = false →
      genLoop t cands fuel = some (cands k) := by
  intro k
  induction k with
  | zero =>
      intro cands fuel hfuel _ hfresh
      cases fuel with
      | zero => omega
      | succ f => simp [genLoop, hfresh]
  | succ k ih =>
      intro cands fuel hfuel hbefore hfresh
      cases fuel with
      | zero => omega
      | succ f =>
          have h0 : tableContains t (uuidKey (cands 0)) = true :=
            hbefore 0 (Nat.succ_pos k)
          have hrec := ih (fun n => cands (n + 1)) f (by omega)
            (fun j hj => hbefore (j + 1) (by omega)) hfresh
          simpa [genLoop, h0] using hrec

/-- C5: at construction, a cookie value that parses is used directly as the
handle's identifier — for every table state, so no existence check — while
with no parseable cookie the loop draws random 128-bit candidates and binds
the handle to the first one not already present as a table key. -/
theorem c5_new_resolution (t : Table) (cands : Nat → Uuid) (fuel k : Nat)
    (parse : String → Option Uuid) (cookieVal : Option String) (v : Uuid)
    (hparse : cookieVal.bind parse = some v)
    (hfresh : tableContains t (uuidKey (cands k)) = false)
    (hbefore : ∀ j, j < k → tableContains t (uuidKey (cands j)) = true)
    (hfuel : k < fuel) :
    new t cands fuel parse cookieVal = some v ∧
    new t cands fuel parse none = some (cands k) := by
  constructor
  · simp [new, hparse]
  · simp only [new, Option.bind]
    exact genLoop_first_fresh t k cands fuel hfuel hbefore hfresh

/-- C5 witness: cookie `"u"` parses to identifier `9` and is used directly
over `genTable`; without a cookie, candidate `5` collides with `genTable`
and the loop binds the handle to the next candidate, `7`. -/
theorem c5_new_resolution_witness :
    (some "u").bind parse1 = some (9 : Uuid) ∧
    tableContains genTable (uuidKey (cands1 1)) = false ∧
    tableContains genTable (uuidKey (cands1 0)) = true ∧
    (new genTable cands1 3 parse1 (some "u") = some (9 : Uuid) ∧
     new genTable cands1 3 parse1 none = some (cands1 1)) :=
  ⟨by decide, by decide, by decide,
   c5_new_resolution genTable cands1 3 1 parse1 (some "u") 9 (by decide) (by decide)
     (fun j hj => by
        have hj0 : j = 0 := by omega
        subst hj0
        decide)
     (by decide)⟩

/-- C3 (the materialization step `get_or_create` is modelled from the spec:
the service layer that creates entries is not under src/): materializing a
well-formed but absent identifier puts a fresh empty `SessionData` in the
table; on it, `get` succeeds with `none` and no warning and `set` succeeds
and keeps the entry present, whereas without the materialized entry a `set`
does not succeed — so an entry exists before any get/set call succeeds. -/
theorem c3_entry_before_get_set {T : Type}
    (deserialize : String → Option T) (serialize : T → Option String)
    (t : Table) (id key : String) (v : T)
    (habsent : tableGet t id = none) :
    tableGet (get_or_create t id) id = some emptyData ∧
    (get deserialize (get_or_create t id) id key).result = none ∧
    (get deserialize (get_or_create t id) id key).warnings = [] ∧
    (set serialize (get_or_create t id) id key v).result = some 1 ∧
    (tableGet (set serialize (get_or_create t id) id key v).table id).isSome = true ∧
    (set serialize t id key v).result = none := by
  have hg : get_or_create t id = (id, emptyData) :: t := by
    simp [get_or_create, habsent, tableInsert]
  have h0 : tableGet (get_or_create t id) id = some emptyData := by
    simp [hg, tableGet]
  obtain ⟨sd', h1, _, h3⟩ := set_stored serialize (get_or_create t id) id key v emptyData h0
  refine ⟨h0, ?_, ?_, h3, ?_, ?_⟩
  · simp [get, tap, h0, emptyData, dataGet]
  · simp [get, tap, h0]
  · simp [h1]
  · simp [set, tap, habsent]

/-- C3 witness: materializing the absent identifier `"a"` on the empty table
gives a usable fresh empty session (identity string codec). -/
theorem c3_entry_before_get_set_witness :
    tableGet ([] : Table) "a" = none ∧
    (tableGet (get_or_create [] "a") "a" = some emptyData ∧
     (get (fun x => some x) (get_or_create [] "a") "a" "k").result = none ∧
     (get (fun x => some x) (get_or_create [] "a") "a" "k").warnings = [] ∧
     (set (fun x : String => some x) (get_or_create [] "a") "a" "k" "v").result = some 1 ∧
     (tableGet (set (fun x : String => some x) (get_or_create [] "a") "a" "k" "v").table
        "a").isSome = true ∧
     (set (fun x : String => some x) ([] : Table) "a" "k" "v").result = none) :=
  ⟨rfl, c3_entry_before_get_set (fun x => some x) (fun x => some x) [] "a" "k" "v" rfl⟩

end AxumSessions
